import Mathlib

/-!
Verification of the task/process subsystem of the 2016-Spring-OSDI teaching
kernel (kernel/syscall.c together with the task-lifecycle code appended to it).
The C code is shallowly embedded: the task table, the trap frames and the
syscall operations become executable Lean definitions, external collaborators
(memory allocator, scheduler, console) become an explicit state threaded
through the operations, and panics / out-of-bounds accesses become explicit
outcome constructors.
-/

namespace Kern

/-- Modelled from the spec: kernel/task.h is not in src; the spec only says the
task table is fixed-capacity ("fixed-size task table", NR_TASKS slots).  The
claims do not depend on the numeric value, only on it being at least 2. -/
def NR_TASKS : Nat := 10

/-- Modelled from the spec: inc/memlayout.h is not in src; x86 page size. -/
def PGSIZE : Nat := 4096

/-- Modelled from the spec: "map a fixed-size user stack region immediately
below a configured stack-top address"; the numeric size is not in src.  The
claims depend only on it being a positive multiple of PGSIZE. -/
def USR_STACK_SIZE : Nat := 8 * PGSIZE

/-- Modelled from the spec: the configured user-stack-top address
(inc/memlayout.h is not in src). -/
def USTACKTOP : Nat := 0xE0000000

/-- Number of user-stack pages. -/
def NSTACK : Nat := USR_STACK_SIZE / PGSIZE

/-- Modelled from the spec: the fixed default scheduling quantum
("set the quantum to a fixed default"; kernel/task.h is not in src). -/
def TIME_QUANT : Int := 100

/-- Segment selectors, taken from the GDT comments in the source:
0x8 kernel code, 0x10 kernel data, 0x18 user code, 0x20 user data. -/
def GD_KT : Nat := 0x08

def GD_KD : Nat := 0x10

def GD_UT : Nat := 0x18

def GD_UD : Nat := 0x20

/-- Modelled from the spec: the kernel's own page directory (kern_pgdir,
kernel/mem.c is not in src), as an abstract directory handle. -/
def KERN_PGDIR : Nat := 1

/-- Modelled from the spec: linker-script addresses of the shared user program
image (UTEXT_start and friends are extern symbols not in src).  Values are
arbitrary page-aligned addresses; claims do not depend on them. -/
def UTEXT_start : Nat := 0x00800000

def UTEXT_SZ : Nat := PGSIZE

def UDATA_start : Nat := 0x00801000

def UDATA_SZ : Nat := PGSIZE

def UBSS_start : Nat := 0x00802000

def UBSS_SZ : Nat := PGSIZE

def URODATA_start : Nat := 0x00803000

def URODATA_SZ : Nat := PGSIZE

/-- Modelled from the spec: address of user_entry (extern symbol). -/
def USER_ENTRY : Nat := 0x00800020

/-- The C cast (int32_t)x of a uint32_t value: two's-complement
reinterpretation. -/
def i32ofu32 (n : Nat) : Int :=
  if n % 4294967296 < 2147483648 then ((n % 4294967296 : Nat) : Int)
  else ((n % 4294967296 : Nat) : Int) - 4294967296

/-- Task states (enum in kernel/task.h; the five states are named throughout
the source and the spec). TASK_FREE is the zero/memset value. -/
inductive TaskState : Type where
  | TASK_FREE
  | TASK_RUNNABLE
  | TASK_RUNNING
  | TASK_SLEEP
  | TASK_STOP
  deriving DecidableEq

/-- The pushed general registers of a trap frame (struct PushRegs,
inc/trap.h is not in src; field set modelled from the spec's "saved
register/segment/privilege-level state" and the fields the source reads). -/
structure PushRegs : Type where
  reg_edi : Nat
  reg_esi : Nat
  reg_ebp : Nat
  reg_oesp : Nat
  reg_ebx : Nat
  reg_edx : Nat
  reg_ecx : Nat
  reg_eax : Nat
  deriving DecidableEq

/-- The saved trap frame (struct Trapframe). -/
structure Trapframe : Type where
  tf_regs : PushRegs
  tf_es : Nat
  tf_ds : Nat
  tf_trapno : Nat
  tf_err : Nat
  tf_eip : Nat
  tf_cs : Nat
  tf_eflags : Nat
  tf_esp : Nat
  tf_ss : Nat
  deriving DecidableEq

/-- The all-zero trap frame (memset 0). -/
def zeroTF : Trapframe :=
  { tf_regs := { reg_edi := 0, reg_esi := 0, reg_ebp := 0, reg_oesp := 0,
                 reg_ebx := 0, reg_edx := 0, reg_ecx := 0, reg_eax := 0 },
    tf_es := 0, tf_ds := 0, tf_trapno := 0, tf_err := 0, tf_eip := 0,
    tf_cs := 0, tf_eflags := 0, tf_esp := 0, tf_ss := 0 }

/-- Overwrite the return-value register (eax) of a trap frame. -/
def setEax (tf : Trapframe) (v : Nat) : Trapframe :=
  { tf with tf_regs := { tf.tf_regs with reg_eax := v } }

/-- Overwrite the instruction pointer of a trap frame. -/
def setEip (tf : Trapframe) (v : Nat) : Trapframe :=
  { tf with tf_eip := v }

/-- One slot of the task table (struct Task).  `pgdir` is the task's page
directory as an abstract handle; 0 is the NULL directory (memset value). -/
structure Task : Type where
  task_id : Int
  state : TaskState
  parent_id : Int
  pgdir : Nat
  tf : Trapframe
  remind_ticks : Int
  deriving DecidableEq

/-- A fully zeroed task slot (memset 0; state 0 is TASK_FREE). -/
def zeroTask : Task :=
  { task_id := 0, state := TaskState.TASK_FREE, parent_id := 0, pgdir := 0,
    tf := zeroTF, remind_ticks := 0 }

instance : Inhabited Task := ⟨zeroTask⟩

/-- Modelled from the spec: the state of the Address-Space Service
(kernel/mem.c is not in src).  Page directories and physical frames are
abstract handles; `maps` records (directory, virtual address, frame)
mappings; `dirAlive` / `ptAlive` record which directories still own their
directory page and their page-table pages.  Frame contents are not modelled:
no claim observes them. -/
structure Mem : Type where
  freePages : Nat
  usedPages : Nat
  nextFrame : Nat
  nextDir : Nat
  dirAlive : List Nat
  ptAlive : List Nat
  maps : List (Nat × Nat × Nat)
  deriving DecidableEq

/-- Modelled from the spec: lookup-page(handle, vaddr) → frame-or-none. -/
def page_lookup (m : Mem) (pd va : Nat) : Option Nat :=
  (m.maps.find? (fun e => e.1 == pd && e.2.1 == va)).map (fun e => e.2.2)

/-- Modelled from the spec: map-page; inserts (replacing any previous mapping
of the same directory and address).  The source ignores page_insert's return
value, so failure is not modelled. -/
def page_insert (m : Mem) (pd frame va : Nat) : Mem :=
  { m with maps := (pd, va, frame) :: m.maps.filter (fun e => !(e.1 == pd && e.2.1 == va)) }

/-- Modelled from the spec: unmap-page and free the backing frame. -/
def page_remove (m : Mem) (pd va : Nat) : Mem :=
  match page_lookup m pd va with
  | none => m
  | some _ =>
      { m with maps := m.maps.filter (fun e => !(e.1 == pd && e.2.1 == va)),
               freePages := m.freePages + 1, usedPages := m.usedPages - 1 }

/-- Modelled from the spec: destroy-page-table(handle). -/
def ptable_remove (m : Mem) (pd : Nat) : Mem :=
  { m with ptAlive := m.ptAlive.filter (fun d => d != pd) }

/-- Modelled from the spec: destroy-page-directory(handle). -/
def pgdir_remove (m : Mem) (pd : Nat) : Mem :=
  if pd ∈ m.dirAlive then
    { m with dirAlive := m.dirAlive.filter (fun d => d != pd),
             freePages := m.freePages + 1, usedPages := m.usedPages - 1 }
  else m

/-- Modelled from the spec: create-address-space() → handle, or failure on
memory exhaustion. -/
def setupkvm (m : Mem) : Option (Nat × Mem) :=
  if m.freePages = 0 then none
  else some (m.nextDir,
    { m with freePages := m.freePages - 1, usedPages := m.usedPages + 1,
             nextDir := m.nextDir + 1,
             dirAlive := m.nextDir :: m.dirAlive,
             ptAlive := m.nextDir :: m.ptAlive })

/-- Modelled from the spec: allocate one physical frame, or fail. -/
def page_alloc (m : Mem) : Option (Nat × Mem) :=
  if m.freePages = 0 then none
  else some (m.nextFrame,
    { m with freePages := m.freePages - 1, usedPages := m.usedPages + 1,
             nextFrame := m.nextFrame + 1 })

/-- The page-aligned addresses covering [start, start+sz). -/
def imagePages (start sz : Nat) : List Nat :=
  (List.range ((start % PGSIZE + sz + PGSIZE - 1) / PGSIZE)).map
    (fun j => (start / PGSIZE) * PGSIZE + j * PGSIZE)

/-- Modelled from the spec: setupvm re-establishes the shared program-image
mappings of a range in the given directory (kernel/mem.c is not in src);
the image frames are shared, modelled as the identity frame. -/
def setupvm (m : Mem) (pd start sz : Nat) : Mem :=
  (imagePages start sz).foldl (fun mm va => page_insert mm pd va va) m

/-- The user-stack page addresses, ascending from USTACKTOP - USR_STACK_SIZE,
exactly the loop `for (i = USTACKTOP - USR_STACK_SIZE; i < USTACKTOP;
i += PGSIZE)` of the source. -/
def stackVAs : List Nat :=
  (List.range NSTACK).map (fun j => USTACKTOP - USR_STACK_SIZE + j * PGSIZE)

/-- The whole kernel state the embedded operations act on: the task table
(`tasks`, the global array), the current-task pointer (as a slot index),
the Address-Space Service state, the active translation root (cr3), and
counters for the externally observable events (scheduler yields, console
characters, timer ticks) plus console input and screen state. -/
structure Kernel : Type where
  tasks : List Task
  curTask : Option Nat
  mem : Mem
  cr3 : Nat
  yields : Nat
  consoleOut : Nat
  ticks : Nat
  input : List Int
  textColor : Nat × Nat
  clsCount : Nat
  deriving DecidableEq

/-- tasks[i] (the default only fires out of bounds, which the source never
does on the paths the theorems cover). -/
def taskAt (k : Kernel) (i : Nat) : Task :=
  k.tasks.getD i zeroTask

/-- Outcome of an embedded kernel operation: normal return carrying the
result and the post-state, a kernel panic (halt), or C undefined behavior
(out-of-bounds task-table access). -/
inductive KResult (α : Type) : Type where
  | ok : α → Kernel → KResult α
  | panicked : KResult α
  | ub : KResult α
  deriving DecidableEq

/-- Modelled from the spec: sched_yield (kernel/sched.c is not in src) —
cooperative relinquish; only the fact that a yield happened is observable
to this core. -/
def sched_yield (k : Kernel) : Kernel :=
  { k with yields := k.yields + 1 }

/-- printk: one console message. -/
def printk (k : Kernel) : Kernel :=
  { k with consoleOut := k.consoleOut + 1 }

/-- cprintf: one console message. -/
def cprintf (k : Kernel) : Kernel :=
  { k with consoleOut := k.consoleOut + 1 }

/-- sys_getpid: the current task's id, or -1 when no task is current. -/
def sys_getpid (k : Kernel) : Int :=
  match k.curTask with
  | some c => (taskAt k c).task_id
  | none => -1

/-- sys_sleep: with a current RUNNING task, set it SLEEP, store the (int32
cast of the) requested tick count, yield, return 0; otherwise panic
("Can't sleep the task"). -/
def sys_sleep (time : Nat) (k : Kernel) : KResult Int :=
  match k.curTask with
  | some c =>
      if (taskAt k c).state = TaskState.TASK_RUNNING then
        let t1 := { taskAt k c with state := TaskState.TASK_SLEEP,
                                    remind_ticks := i32ofu32 time }
        let k1 := { k with tasks := k.tasks.set c t1 }
        KResult.ok 0 (sched_yield k1)
      else KResult.panicked
  | none => KResult.panicked

/-- The slot's availability test of the task_create scan:
state TASK_FREE or TASK_STOP. -/
def availT (t : Task) : Prop :=
  t.state = TaskState.TASK_FREE ∨ t.state = TaskState.TASK_STOP

instance decAvailT (t : Task) : Decidable (availT t) :=
  inferInstanceAs (Decidable (t.state = TaskState.TASK_FREE ∨ t.state = TaskState.TASK_STOP))

/-- The linear scan `for (i = 0; i < NR_TASKS; i++) if (FREE or STOP) break`
over the task table, returning the first available slot index. -/
def scanAvail : List Task → Option Nat
  | [] => none
  | t :: ts => if availT t then some 0 else (scanAvail ts).map (fun j => j + 1)

/-- parent_id assigned by task_create: cur_task->task_id, or -1 when
cur_task is NULL. -/
def parentIdOf (k : Kernel) : Int :=
  match k.curTask with
  | some c => (taskAt k c).task_id
  | none => -1

/-- The user-stack mapping loop of task_create: page_alloc each page and
page_insert it (PTE_U | PTE_W); on an allocation failure stop and report
failure (the source returns -1 from inside the loop). -/
def mapStack (pd : Nat) : List Nat → Mem → Mem × Bool
  | [], m => (m, true)
  | va :: vas, m =>
      match page_alloc m with
      | none => (m, false)
      | some fm => mapStack pd vas (page_insert fm.2 pd fm.1 va)

/-- The task record task_create builds in slot i of kernel state k (fresh
page directory, zeroed trap frame with user segment selectors and
esp = USTACKTOP - PGSIZE, quantum TIME_QUANT, state RUNNABLE). -/
def createdTask (k : Kernel) (i : Nat) : Task :=
  { task_id := Int.ofNat i,
    parent_id := parentIdOf k,
    pgdir := k.mem.nextDir,
    tf := { zeroTF with tf_cs := GD_UT ||| 0x03, tf_ds := GD_UD ||| 0x03,
                        tf_es := GD_UD ||| 0x03, tf_ss := GD_UD ||| 0x03,
                        tf_esp := USTACKTOP - PGSIZE },
    remind_ticks := TIME_QUANT,
    state := TaskState.TASK_RUNNABLE }

/-- task_create: scan for the first FREE/STOP slot (fail with -1 if none);
setupkvm (panic if it fails); printk the directory address; allocate and map
the user-stack pages (returning -1 from inside the loop on exhaustion, with
the slot's pgdir already written and earlier pages already mapped, as in the
source); then fill in the trap frame and the task fields and return the id. -/
def task_create (k : Kernel) : KResult Int :=
  match scanAvail k.tasks with
  | none => KResult.ok (-1) k
  | some i =>
      match setupkvm k.mem with
      | none => KResult.panicked
      | some pdm =>
          let pd := pdm.1
          let k1 := { k with mem := pdm.2,
                             tasks := k.tasks.set i { taskAt k i with pgdir := pd } }
          let k2 := printk k1
          match mapStack pd stackVAs k2.mem with
          | (m2, false) => KResult.ok (-1) { k2 with mem := m2 }
          | (m2, true) =>
              KResult.ok (Int.ofNat i)
                { k2 with mem := m2, tasks := k2.tasks.set i (createdTask k i) }

/-- task_free: for 0 < pid < NR_TASKS, switch cr3 to the kernel's page
directory, page_remove every user-stack page from the task's directory,
then free its page tables and its page directory. -/
def task_free (pid : Int) (k : Kernel) : Kernel :=
  if 0 < pid ∧ pid < (NR_TASKS : Int) then
    let ts := taskAt k pid.toNat
    let k1 := { k with cr3 := KERN_PGDIR }
    let m1 := stackVAs.foldl (fun m va => page_remove m ts.pgdir va) k1.mem
    { k1 with mem := pgdir_remove (ptable_remove m1 ts.pgdir) ts.pgdir }
  else k

/-- sys_kill: for 0 < pid < NR_TASKS with the slot not already FREE/STOP,
mark it STOP, run task_free, and yield; otherwise do nothing. -/
def sys_kill (pid : Int) (k : Kernel) : Kernel :=
  if 0 < pid ∧ pid < (NR_TASKS : Int) then
    if (taskAt k pid.toNat).state = TaskState.TASK_FREE ∨
       (taskAt k pid.toNat).state = TaskState.TASK_STOP then k
    else
      let t1 := { taskAt k pid.toNat with state := TaskState.TASK_STOP }
      let k1 := { k with tasks := k.tasks.set pid.toNat t1 }
      sched_yield (task_free pid k1)
  else k

/-- sys_fork: with cur_task set, call task_create; the source's guard is
`if (!(pid = task_create())) return -1`, so a pid of 0 is reported as
failure while a failure return of -1 passes the guard and the code then
accesses tasks[-1] (undefined behavior, modelled as KResult.ub).  On the
surviving path: copy the parent's whole trap frame into the child, check
every user-stack page of the child is mapped (the per-page memcpy of frame
contents is not observable in this model), re-establish the shared image
mappings, zero the child's saved eax, and return the child's pid. -/
def sys_fork (k : Kernel) : KResult Int :=
  match k.curTask with
  | none => KResult.ok (-1) k
  | some c =>
      match task_create k with
      | KResult.panicked => KResult.panicked
      | KResult.ub => KResult.ub
      | KResult.ok pid k1 =>
          if pid = 0 then KResult.ok (-1) k1
          else if pid < 0 ∨ (NR_TASKS : Int) ≤ pid then KResult.ub
          else
            let i := pid.toNat
            let t1 := { taskAt k1 i with tf := (taskAt k1 c).tf }
            let k2 := { k1 with tasks := k1.tasks.set i t1 }
            let childPgdir := (taskAt k2 i).pgdir
            if stackVAs.all (fun va => (page_lookup k2.mem childPgdir va).isSome) then
              let m1 := setupvm k2.mem childPgdir UTEXT_start UTEXT_SZ
              let m2 := setupvm m1 childPgdir UDATA_start UDATA_SZ
              let m3 := setupvm m2 childPgdir UBSS_start UBSS_SZ
              let m4 := setupvm m3 childPgdir URODATA_start URODATA_SZ
              let k3 := { k2 with mem := m4 }
              let t2 := { taskAt k3 i with tf := setEax (taskAt k3 i).tf 0 }
              KResult.ok pid { k3 with tasks := k3.tasks.set i t2 }
            else KResult.ok (-1) k2

/-- do_getc: pop one character of console input, or -1 when none. -/
def do_getc (k : Kernel) : Int × Kernel :=
  match k.input with
  | [] => (-1, k)
  | c :: rest => (c, { k with input := rest })

/-- do_puts(str, len): emit len characters to the console (the bytes come
from user memory, whose contents are not modelled). -/
def do_puts (len : Nat) (k : Kernel) : Kernel :=
  { k with consoleOut := k.consoleOut + len }

/-- Modelled from the spec: numeric syscall numbers (kernel/syscall.h is not
in src); the dispatch only needs them distinct, values are the enum order. -/
def SYS_fork : Nat := 0

def SYS_getc : Nat := 1

def SYS_puts : Nat := 2

def SYS_getpid : Nat := 3

def SYS_sleep : Nat := 4

def SYS_kill : Nat := 5

def SYS_get_num_free_page : Nat := 6

def SYS_get_num_used_page : Nat := 7

def SYS_get_ticks : Nat := 8

def SYS_settextcolor : Nat := 9

def SYS_cls : Nat := 10

def SYS_test : Nat := 11

/-- The recognized call numbers of do_syscall's dispatch table. -/
def syscallTable : List Nat :=
  [SYS_fork, SYS_getc, SYS_puts, SYS_getpid, SYS_sleep, SYS_kill,
   SYS_get_num_free_page, SYS_get_num_used_page, SYS_get_ticks,
   SYS_settextcolor, SYS_cls, SYS_test]

/-- do_syscall: the switch of kernel/syscall.c.  retVal starts at -1 and is
only assigned by a matching case, so an unrecognized number falls through to
`return retVal` with no side effect. -/
def do_syscall (syscallno a1 a2 a3 a4 a5 : Nat) (k : Kernel) : KResult Int :=
  if syscallno = SYS_fork then sys_fork k
  else if syscallno = SYS_getc then
    let vk := do_getc k
    KResult.ok vk.1 vk.2
  else if syscallno = SYS_puts then KResult.ok 0 (do_puts a2 k)
  else if syscallno = SYS_getpid then KResult.ok (sys_getpid k) k
  else if syscallno = SYS_sleep then sys_sleep a1 k
  else if syscallno = SYS_kill then
    KResult.ok 0 (sys_kill (i32ofu32 a1) (cprintf k))
  else if syscallno = SYS_get_num_free_page then KResult.ok (Int.ofNat k.mem.freePages) k
  else if syscallno = SYS_get_num_used_page then KResult.ok (Int.ofNat k.mem.usedPages) k
  else if syscallno = SYS_get_ticks then KResult.ok (Int.ofNat k.ticks) k
  else if syscallno = SYS_settextcolor then
    KResult.ok 0 { k with textColor := (a1 % 256, a2 % 256) }
  else if syscallno = SYS_cls then KResult.ok 0 { k with clsCount := k.clsCount + 1 }
  else if syscallno = SYS_test then KResult.ok 12345678 k
  else KResult.ok (-1) k

/-- task_init: zero every slot and mark it FREE (the TSS/GDT setup touches
only hardware state outside this model); create the bootstrap task with
cur_task still NULL, point cur_task at it (an id of -1 would make
cur_task point out of bounds: KResult.ub), printk, map the program image,
set its eip to user_entry, and finally mark it RUNNING. -/
def task_init (k : Kernel) : KResult Unit :=
  let k1 := { k with tasks := List.replicate NR_TASKS zeroTask }
  match task_create k1 with
  | KResult.panicked => KResult.panicked
  | KResult.ub => KResult.ub
  | KResult.ok pid k2 =>
      if pid < 0 ∨ (NR_TASKS : Int) ≤ pid then KResult.ub
      else
        let i := pid.toNat
        let k3 := printk { k2 with curTask := some i }
        let pd := (taskAt k3 i).pgdir
        let m1 := setupvm k3.mem pd UTEXT_start UTEXT_SZ
        let m2 := setupvm m1 pd UDATA_start UDATA_SZ
        let m3 := setupvm m2 pd UBSS_start UBSS_SZ
        let m4 := setupvm m3 pd URODATA_start URODATA_SZ
        let k4 := { k3 with mem := m4 }
        let t1 := { taskAt k4 i with tf := setEip (taskAt k4 i).tf USER_ENTRY }
        let k5 := { k4 with tasks := k4.tasks.set i t1 }
        let t2 := { taskAt k5 i with state := TaskState.TASK_RUNNING }
        KResult.ok () { k5 with tasks := k5.tasks.set i t2 }

/-! Concrete states used by the scenario theorem and the witnesses. -/

/-- A boot-time memory state with ample free pages. -/
def bootMem : Mem :=
  { freePages := 64, usedPages := 0, nextFrame := 100, nextDir := 2,
    dirAlive := [KERN_PGDIR], ptAlive := [KERN_PGDIR], maps := [] }

/-- The same memory with no free page at all. -/
def noMem : Mem :=
  { freePages := 0, usedPages := 0, nextFrame := 100, nextDir := 2,
    dirAlive := [KERN_PGDIR], ptAlive := [KERN_PGDIR], maps := [] }

/-- The same memory with a free page for the directory but too few for the
whole user stack. -/
def lowMem : Mem :=
  { freePages := 3, usedPages := 0, nextFrame := 100, nextDir := 2,
    dirAlive := [KERN_PGDIR], ptAlive := [KERN_PGDIR], maps := [] }

/-- The machine state right before task_init runs. -/
def bootKernel : Kernel :=
  { tasks := [], curTask := none, mem := bootMem, cr3 := KERN_PGDIR,
    yields := 0, consoleOut := 0, ticks := 0, input := [],
    textColor := (7, 0), clsCount := 0 }

/-- The kernel state after task_init (total extraction; task_init succeeds
on bootKernel, which the scenario theorem proves). -/
def afterInit : Kernel :=
  match task_init bootKernel with
  | KResult.ok _ k => k
  | _ => bootKernel

/-- The kernel state after task 0 invokes the fork syscall. -/
def afterFork : Kernel :=
  match do_syscall SYS_fork 0 0 0 0 0 afterInit with
  | KResult.ok _ k => k
  | _ => afterInit

/-- An initialized table with every slot occupied (slot 0 RUNNING, the rest
RUNNABLE) and task 0 current: no FREE or STOP slot anywhere. -/
def kFull : Kernel :=
  { tasks := ({ zeroTask with state := TaskState.TASK_RUNNING }) ::
      List.replicate (NR_TASKS - 1) ({ zeroTask with state := TaskState.TASK_RUNNABLE }),
    curTask := some 0, mem := bootMem, cr3 := KERN_PGDIR, yields := 0,
    consoleOut := 0, ticks := 0, input := [], textColor := (7, 0), clsCount := 0 }

/-- An all-FREE table with no current task and no free memory page. -/
def kNoMem : Kernel :=
  { tasks := List.replicate NR_TASKS zeroTask, curTask := none, mem := noMem,
    cr3 := KERN_PGDIR, yields := 0, consoleOut := 0, ticks := 0, input := [],
    textColor := (7, 0), clsCount := 0 }

/-- An all-FREE table with memory for the page directory but not the stack. -/
def kLowMem : Kernel := { kNoMem with mem := lowMem }

/-- An all-FREE table with ample memory and no current task. -/
def kFresh : Kernel := { kNoMem with mem := bootMem }

/-! Helper lemmas. -/

theorem getD_set_self (l : List Task) (i : Nat) (t : Task) (h : i < l.length) :
    (l.set i t).getD i zeroTask = t := by
  rw [List.getD_eq_getElem?_getD, List.getElem?_set_self h]
  rfl

theorem getD_set_ne (l : List Task) (i j : Nat) (t : Task) (h : i ≠ j) :
    (l.set i t).getD j zeroTask = l.getD j zeroTask := by
  rw [List.getD_eq_getElem?_getD, List.getElem?_set_ne h, ← List.getD_eq_getElem?_getD]

theorem scanAvail_eq_none (l : List Task) :
    scanAvail l = none ↔ ∀ t ∈ l, ¬ availT t := by
  induction l with
  | nil => simp [scanAvail]
  | cons t ts ih =>
      by_cases h : availT t
      · simp [scanAvail, h]
      · simp [scanAvail, h, ih]

theorem scanAvail_eq_some (l : List Task) (i : Nat) (h : scanAvail l = some i) :
    i < l.length ∧ availT (l.getD i zeroTask) ∧
      ∀ j, j < i → ¬ availT (l.getD j zeroTask) := by
  induction l generalizing i with
  | nil => simp [scanAvail] at h
  | cons t ts ih =>
      by_cases ha : availT t
      · simp [scanAvail, ha] at h
        subst h
        exact ⟨Nat.succ_pos _, ha, fun j hj => absurd hj (Nat.not_lt_zero j)⟩
      · simp [scanAvail, ha, Option.map_eq_some'] at h
        obtain ⟨i0, hi0, rfl⟩ := h
        obtain ⟨hlt, hav, hleast⟩ := ih i0 hi0
        refine ⟨Nat.succ_lt_succ hlt, by simpa using hav, ?_⟩
        intro j hj
        cases j with
        | zero => simpa using ha
        | succ j0 => simpa using hleast j0 (Nat.lt_of_succ_lt_succ hj)

/-- Number of RUNNABLE slots in the table. -/
def countRunnable : List Task → Nat
  | [] => 0
  | t :: ts => (if t.state = TaskState.TASK_RUNNABLE then 1 else 0) + countRunnable ts

theorem countRunnable_set (l : List Task) (i : Nat) (t : Task) (hi : i < l.length)
    (hold : ¬ (l.getD i zeroTask).state = TaskState.TASK_RUNNABLE)
    (hnew : t.state = TaskState.TASK_RUNNABLE) :
    countRunnable (l.set i t) = countRunnable l + 1 := by
  induction l generalizing i with
  | nil => simp at hi
  | cons hd tl ih =>
      cases i with
      | zero =>
          simp only [List.getD_cons_zero] at hold
          simp [List.set, countRunnable, hnew, hold]
          omega
      | succ n =>
          simp only [List.getD_cons_succ] at hold
          simp only [List.set, countRunnable]
          rw [ih n (Nat.lt_of_succ_lt_succ hi) hold]
          omega

theorem isSome_omap {α β : Type} (f : α → β) (o : Option α) :
    (o.map f).isSome = o.isSome := by
  cases o <;> rfl

theorem page_lookup_isSome (m : Mem) (pd va : Nat) :
    (page_lookup m pd va).isSome ↔
      ∃ e ∈ m.maps, (e.1 == pd && e.2.1 == va) = true := by
  rw [page_lookup, isSome_omap, List.find?_isSome]

theorem page_lookup_eq_none (m : Mem) (pd va : Nat) :
    page_lookup m pd va = none ↔
      ∀ e ∈ m.maps, ¬ (e.1 == pd && e.2.1 == va) = true := by
  rw [page_lookup, Option.map_eq_none', List.find?_eq_none]

theorem page_insert_lookup_isSome_self (m : Mem) (pd f va : Nat) :
    (page_lookup (page_insert m pd f va) pd va).isSome := by
  rw [page_lookup_isSome]
  exact ⟨(pd, va, f), List.mem_cons_self _ _, by simp⟩

theorem page_insert_lookup_isSome_mono (m : Mem) (pd va pd2 f va2 : Nat)
    (h : (page_lookup m pd va).isSome) :
    (page_lookup (page_insert m pd2 f va2) pd va).isSome := by
  rw [page_lookup_isSome] at h ⊢
  obtain ⟨e, he, hpred⟩ := h
  by_cases hsame : pd2 = pd ∧ va2 = va
  · exact ⟨(pd2, va2, f), List.mem_cons_self _ _, by simp [hsame.1, hsame.2]⟩
  · refine ⟨e, List.mem_cons_of_mem _ ?_, hpred⟩
    rw [List.mem_filter]
    refine ⟨he, ?_⟩
    simp only [Bool.and_eq_true, beq_iff_eq] at hpred
    rw [hpred.1, hpred.2]
    by_cases hpp : pd = pd2
    · by_cases hvv : va = va2
      · exact absurd ⟨hpp.symm, hvv.symm⟩ hsame
      · simp [hvv]
    · simp [hpp]

theorem page_remove_lookup_self (m : Mem) (pd va : Nat) :
    page_lookup (page_remove m pd va) pd va = none := by
  unfold page_remove
  cases h : page_lookup m pd va with
  | none => exact h
  | some f =>
      rw [page_lookup_eq_none]
      intro e he
      have := (List.mem_filter.mp he).2
      simp only [Bool.not_eq_eq_eq_not, Bool.not_true] at this
      simp [this]

theorem page_remove_lookup_none_mono (m : Mem) (pd va pd2 va2 : Nat)
    (h : page_lookup m pd va = none) :
    page_lookup (page_remove m pd2 va2) pd va = none := by
  unfold page_remove
  cases h2 : page_lookup m pd2 va2 with
  | none => exact h
  | some f =>
      rw [page_lookup_eq_none]
      intro e he
      exact (page_lookup_eq_none m pd va).mp h e (List.mem_filter.mp he).1

/-- The user-stack unmapping loop of task_free. -/
def removeStack (pd : Nat) (vas : List Nat) (m : Mem) : Mem :=
  vas.foldl (fun mm va => page_remove mm pd va) m

theorem removeStack_lookup_none_mono (pd : Nat) (vas : List Nat) (m : Mem)
    (pd0 va0 : Nat) (h : page_lookup m pd0 va0 = none) :
    page_lookup (removeStack pd vas m) pd0 va0 = none := by
  induction vas generalizing m with
  | nil => exact h
  | cons va rest ih =>
      exact ih _ (page_remove_lookup_none_mono m pd0 va0 pd va h)

theorem removeStack_lookup (pd : Nat) (vas : List Nat) (m : Mem) :
    ∀ va ∈ vas, page_lookup (removeStack pd vas m) pd va = none := by
  induction vas generalizing m with
  | nil => intro va hva; simp at hva
  | cons va0 rest ih =>
      intro va hva
      rcases List.mem_cons.mp hva with rfl | hmem
      · exact removeStack_lookup_none_mono pd rest _ pd va
          (page_remove_lookup_self m pd va)
      · exact ih (page_remove m pd va0) va hmem

theorem page_insert_freePages (m : Mem) (pd f va : Nat) :
    (page_insert m pd f va).freePages = m.freePages := rfl

theorem page_lookup_congr_maps (m1 m2 : Mem) (pd va : Nat)
    (h : m1.maps = m2.maps) : page_lookup m1 pd va = page_lookup m2 pd va := by
  unfold page_lookup
  rw [h]

theorem page_alloc_maps (m : Mem) (fm : Nat × Mem) (h : page_alloc m = some fm) :
    fm.2.maps = m.maps := by
  unfold page_alloc at h
  by_cases hz : m.freePages = 0
  · rw [if_pos hz] at h
    cases h
  · rw [if_neg hz] at h
    cases h
    rfl

theorem mapStack_preserves_isSome (pd : Nat) (vas : List Nat) (m mm : Mem)
    (b : Bool) (pd0 va0 : Nat) (hs : (page_lookup m pd0 va0).isSome)
    (h : mapStack pd vas m = (mm, b)) :
    (page_lookup mm pd0 va0).isSome := by
  induction vas generalizing m with
  | nil =>
      simp only [mapStack] at h
      cases h
      exact hs
  | cons va rest ih =>
      simp only [mapStack] at h
      cases hpa : page_alloc m with
      | none =>
          simp only [hpa] at h
          cases h
          exact hs
      | some fm =>
          simp only [hpa] at h
          have hs2 : (page_lookup fm.2 pd0 va0).isSome := by
            rw [page_lookup_congr_maps fm.2 m pd0 va0 (page_alloc_maps m fm hpa)]
            exact hs
          exact ih _ (page_insert_lookup_isSome_mono _ _ _ _ _ _ hs2) h

theorem mapStack_success (pd : Nat) (vas : List Nat) (m : Mem)
    (hmem : vas.length ≤ m.freePages) :
    ∃ mm, mapStack pd vas m = (mm, true) ∧
      mm.freePages = m.freePages - vas.length ∧
      ∀ va ∈ vas, (page_lookup mm pd va).isSome := by
  induction vas generalizing m with
  | nil => exact ⟨m, rfl, rfl, by intro va h; simp at h⟩
  | cons va rest ih =>
      have hpos : m.freePages ≠ 0 := by
        simp only [List.length_cons] at hmem
        omega
      have hpa : page_alloc m = some (m.nextFrame,
          { m with freePages := m.freePages - 1, usedPages := m.usedPages + 1,
                   nextFrame := m.nextFrame + 1 }) := by
        unfold page_alloc
        rw [if_neg hpos]
      have hle : rest.length ≤ (page_insert
          { m with freePages := m.freePages - 1, usedPages := m.usedPages + 1,
                   nextFrame := m.nextFrame + 1 } pd m.nextFrame va).freePages := by
        rw [page_insert_freePages]
        simp only [List.length_cons] at hmem
        simp only []
        omega
      obtain ⟨mm, hms, hfp, hmapped⟩ := ih _ hle
      refine ⟨mm, ?_, ?_, ?_⟩
      · simp only [mapStack, hpa]
        exact hms
      · rw [hfp, page_insert_freePages]
        simp only [List.length_cons]
        omega
      · intro va2 hva2
        rcases List.mem_cons.mp hva2 with rfl | hmem2
        · exact mapStack_preserves_isSome pd rest _ mm true pd va2
            (page_insert_lookup_isSome_self _ _ _ _) hms
        · exact hmapped va2 hmem2

theorem mapStack_fail (pd : Nat) (vas : List Nat) (m : Mem)
    (hmem : m.freePages < vas.length) :
    ∃ mm, mapStack pd vas m = (mm, false) := by
  induction vas generalizing m with
  | nil => simp at hmem
  | cons va rest ih =>
      by_cases hz : m.freePages = 0
      · refine ⟨m, ?_⟩
        simp [mapStack, page_alloc, hz]
      · have hpa : page_alloc m = some (m.nextFrame,
            { m with freePages := m.freePages - 1, usedPages := m.usedPages + 1,
                     nextFrame := m.nextFrame + 1 }) := by
          unfold page_alloc
          rw [if_neg hz]
        have hlt : (page_insert
            { m with freePages := m.freePages - 1, usedPages := m.usedPages + 1,
                     nextFrame := m.nextFrame + 1 } pd m.nextFrame va).freePages
            < rest.length := by
          rw [page_insert_freePages]
          simp only [List.length_cons] at hmem
          simp only []
          omega
        obtain ⟨mm, hms⟩ := ih _ hlt
        refine ⟨mm, ?_⟩
        simp only [mapStack, hpa]
        exact hms

theorem stackVAs_length : stackVAs.length = NSTACK := by
  simp [stackVAs]

theorem mapStack_mapped (pd : Nat) (vas : List Nat) (m mm : Mem)
    (h : mapStack pd vas m = (mm, true)) :
    ∀ va ∈ vas, (page_lookup mm pd va).isSome := by
  induction vas generalizing m with
  | nil => intro va hva; simp at hva
  | cons va0 rest ih =>
      simp only [mapStack] at h
      cases hpa : page_alloc m with
      | none =>
          simp only [hpa] at h
          simp at h
      | some fm =>
          simp only [hpa] at h
          intro va hva
          rcases List.mem_cons.mp hva with rfl | hmem
          · exact mapStack_preserves_isSome pd rest _ mm true pd va
              (page_insert_lookup_isSome_self _ _ _ _) h
          · exact ih _ h va hmem

/-- On a table with no FREE/STOP slot, task_create fails with -1 and the
whole kernel state is untouched. -/
theorem task_create_of_scan_none (k : Kernel) (hscan : scanAvail k.tasks = none) :
    task_create k = KResult.ok (-1) k := by
  simp only [task_create, hscan]

/-- Full explicit characterization of a task_create success with enough
free memory: the resulting kernel, the mapped user stack, and the untouched
components. -/
theorem task_create_char (k : Kernel) (i : Nat)
    (hscan : scanAvail k.tasks = some i)
    (hmem : NSTACK + 1 ≤ k.mem.freePages) :
    ∃ k1, task_create k = KResult.ok (Int.ofNat i) k1 ∧
      k1.tasks = k.tasks.set i (createdTask k i) ∧
      k1.curTask = k.curTask ∧ k1.cr3 = k.cr3 ∧ k1.yields = k.yields ∧
      ∀ va ∈ stackVAs, (page_lookup k1.mem (createdTask k i).pgdir va).isSome := by
  have hfz : ¬ k.mem.freePages = 0 := by omega
  obtain ⟨mm, hms, hfp, hmap⟩ := mapStack_success k.mem.nextDir stackVAs
      { freePages := k.mem.freePages - 1, usedPages := k.mem.usedPages + 1,
        nextFrame := k.mem.nextFrame, nextDir := k.mem.nextDir + 1,
        dirAlive := k.mem.nextDir :: k.mem.dirAlive,
        ptAlive := k.mem.nextDir :: k.mem.ptAlive, maps := k.mem.maps }
      (by rw [stackVAs_length]; simp only []; omega)
  have hsk : setupkvm k.mem = some (k.mem.nextDir,
      { freePages := k.mem.freePages - 1, usedPages := k.mem.usedPages + 1,
        nextFrame := k.mem.nextFrame, nextDir := k.mem.nextDir + 1,
        dirAlive := k.mem.nextDir :: k.mem.dirAlive,
        ptAlive := k.mem.nextDir :: k.mem.ptAlive, maps := k.mem.maps }) := by
    unfold setupkvm
    rw [if_neg hfz]
  refine ⟨{ tasks := k.tasks.set i (createdTask k i), curTask := k.curTask,
            mem := mm, cr3 := k.cr3, yields := k.yields,
            consoleOut := k.consoleOut + 1, ticks := k.ticks, input := k.input,
            textColor := k.textColor, clsCount := k.clsCount },
          ?_, rfl, rfl, rfl, rfl, hmap⟩
  simp only [task_create, hscan, hsk, printk, hms]
  rw [List.set_set]

/-- Inversion: a task_create success with a nonnegative pid came from the
first available slot, and built exactly the created task there with its
whole user stack mapped. -/
theorem task_create_ok_inv (k : Kernel) (pid : Int) (k1 : Kernel)
    (h : task_create k = KResult.ok pid k1) (hpid : 0 ≤ pid) :
    ∃ i, pid = Int.ofNat i ∧ scanAvail k.tasks = some i ∧
      k1.tasks = k.tasks.set i (createdTask k i) ∧
      k1.curTask = k.curTask ∧
      ∀ va ∈ stackVAs, (page_lookup k1.mem (createdTask k i).pgdir va).isSome := by
  unfold task_create at h
  cases hscan : scanAvail k.tasks with
  | none =>
      simp only [hscan] at h
      simp only [KResult.ok.injEq] at h
      omega
  | some i =>
      simp only [hscan] at h
      cases hsk : setupkvm k.mem with
      | none =>
          simp only [hsk] at h
          simp at h
      | some pdm =>
          simp only [hsk] at h
          obtain ⟨pd, ms⟩ := pdm
          simp only at h
          rcases hms : mapStack pd stackVAs ms with ⟨m2, b⟩
          cases b with
          | false =>
              simp only [printk] at h
              simp only [hms] at h
              simp only [KResult.ok.injEq] at h
              omega
          | true =>
              unfold setupkvm at hsk
              by_cases hz : k.mem.freePages = 0
              · rw [if_pos hz] at hsk
                cases hsk
              · rw [if_neg hz] at hsk
                simp only [Option.some.injEq, Prod.mk.injEq] at hsk
                obtain ⟨hpd, hmsR⟩ := hsk
                simp only [printk, hms, KResult.ok.injEq] at h
                obtain ⟨hpid2, hk1⟩ := h
                subst hk1
                refine ⟨i, hpid2.symm, rfl, ?_, rfl, ?_⟩
                · simp only [List.set_set]
                · intro va hva
                  have hlook := mapStack_mapped pd stackVAs ms m2 hms va hva
                  rw [← hpd] at hlook
                  simpa [createdTask] using hlook

/-- With a free slot but not enough pages for the whole user stack (yet at
least one for the directory), task_create returns -1; no slot changes state,
though the claimed slot's pgdir field and the already-mapped pages leak. -/
theorem task_create_stackfail (k : Kernel) (i : Nat)
    (hscan : scanAvail k.tasks = some i)
    (h1 : ¬ k.mem.freePages = 0)
    (h2 : k.mem.freePages < NSTACK + 1) :
    ∃ k1, task_create k = KResult.ok (-1) k1 ∧
      (∀ j, (taskAt k1 j).state = (taskAt k j).state) ∧
      k1.curTask = k.curTask ∧ k1.cr3 = k.cr3 ∧ k1.yields = k.yields := by
  have hsk : setupkvm k.mem = some (k.mem.nextDir,
      { freePages := k.mem.freePages - 1, usedPages := k.mem.usedPages + 1,
        nextFrame := k.mem.nextFrame, nextDir := k.mem.nextDir + 1,
        dirAlive := k.mem.nextDir :: k.mem.dirAlive,
        ptAlive := k.mem.nextDir :: k.mem.ptAlive, maps := k.mem.maps }) := by
    unfold setupkvm
    rw [if_neg h1]
  obtain ⟨mm, hms⟩ := mapStack_fail k.mem.nextDir stackVAs
      { freePages := k.mem.freePages - 1, usedPages := k.mem.usedPages + 1,
        nextFrame := k.mem.nextFrame, nextDir := k.mem.nextDir + 1,
        dirAlive := k.mem.nextDir :: k.mem.dirAlive,
        ptAlive := k.mem.nextDir :: k.mem.ptAlive, maps := k.mem.maps }
      (by rw [stackVAs_length]; simp only []; omega)
  have hi : i < k.tasks.length := (scanAvail_eq_some k.tasks i hscan).1
  refine ⟨{ tasks := k.tasks.set i ({ taskAt k i with pgdir := k.mem.nextDir }),
            curTask := k.curTask, mem := mm, cr3 := k.cr3, yields := k.yields,
            consoleOut := k.consoleOut + 1, ticks := k.ticks, input := k.input,
            textColor := k.textColor, clsCount := k.clsCount },
          ?_, ?_, rfl, rfl, rfl⟩
  · simp only [task_create, hscan, hsk, printk, hms]
  · intro j
    by_cases hij : i = j
    · subst hij
      simp only [taskAt, getD_set_self k.tasks i _ hi]
    · simp only [taskAt, getD_set_ne k.tasks i j _ hij]


theorem scanAvail_none_of_forall (l : List Task)
    (h : ∀ j, j < l.length → ¬ availT (l.getD j zeroTask)) : scanAvail l = none := by
  rw [scanAvail_eq_none]
  intro t ht
  obtain ⟨j, hj, rfl⟩ := List.mem_iff_getElem.mp ht
  have := h j hj
  rwa [List.getD_eq_getElem l zeroTask hj] at this

theorem scanAvail_isSome_of_avail (l : List Task) (j : Nat)
    (hj : j < l.length) (ha : availT (l.getD j zeroTask)) :
    ∃ i, scanAvail l = some i := by
  cases hs : scanAvail l with
  | some i => exact ⟨i, rfl⟩
  | none =>
      rw [List.getD_eq_getElem l zeroTask hj] at ha
      exact absurd ha ((scanAvail_eq_none l).mp hs _ (List.getElem_mem hj))

/-- C1 theorem. -/
theorem sys_fork_create_failure_out_of_bounds :
    task_create kFull = KResult.ok (-1) kFull ∧ sys_fork kFull = KResult.ub := by
  constructor
  · rfl
  · rfl

/-- C3 counterexample. -/
theorem task_create_pgdir_exhaustion_panics :
    task_create kNoMem = KResult.panicked := rfl

/-- C9 theorem. -/
theorem boot_then_fork_scenario :
    task_init bootKernel = KResult.ok () afterInit ∧
    (taskAt afterInit 0).task_id = 0 ∧
    (taskAt afterInit 0).state = TaskState.TASK_RUNNING ∧
    (taskAt afterInit 0).parent_id = -1 ∧
    afterInit.curTask = some 0 ∧
    do_syscall SYS_fork 0 0 0 0 0 afterInit = KResult.ok 1 afterFork ∧
    (taskAt afterFork 1).state = TaskState.TASK_RUNNABLE ∧
    (taskAt afterFork 1).parent_id = 0 ∧
    (taskAt afterFork 1).tf.tf_regs.reg_eax = 0 :=
  ⟨rfl, rfl, rfl, rfl, rfl, rfl, rfl, rfl, rfl⟩

/-- C8 theorem. -/
theorem do_syscall_unrecognized_no_effect (syscallno a1 a2 a3 a4 a5 : Nat) (k : Kernel)
    (h : syscallno ∉ syscallTable) :
    do_syscall syscallno a1 a2 a3 a4 a5 k = KResult.ok (-1) k := by
  simp only [syscallTable, List.mem_cons, List.not_mem_nil, or_false, not_or] at h
  obtain ⟨h1, h2, h3, h4, h5, h6, h7, h8, h9, h10, h11, h12⟩ := h
  simp only [do_syscall, if_neg h1, if_neg h2, if_neg h3, if_neg h4, if_neg h5,
    if_neg h6, if_neg h7, if_neg h8, if_neg h9, if_neg h10, if_neg h11, if_neg h12]

/-- C8 witness. -/
theorem do_syscall_unrecognized_no_effect_inst :
    do_syscall 99 0 0 0 0 0 kFresh = KResult.ok (-1) kFresh :=
  do_syscall_unrecognized_no_effect 99 0 0 0 0 0 kFresh (by decide)

/-- C7 theorem. -/
theorem sys_sleep_spec (time : Nat) (k : Kernel) :
    (∀ c, k.curTask = some c → (taskAt k c).state = TaskState.TASK_RUNNING →
      ∃ k1, sys_sleep time k = KResult.ok 0 k1 ∧
        (taskAt k1 c).state = TaskState.TASK_SLEEP ∧
        (taskAt k1 c).remind_ticks = i32ofu32 time ∧
        (time < 2147483648 → (taskAt k1 c).remind_ticks = (time : Int)) ∧
        k1.yields = k.yields + 1) ∧
    ((k.curTask = none ∨ ∀ c, k.curTask = some c →
        ¬ (taskAt k c).state = TaskState.TASK_RUNNING) →
      sys_sleep time k = KResult.panicked) := by
  constructor
  · intro c hc hrun
    have hlt : c < k.tasks.length := by
      by_contra hge
      rw [taskAt, List.getD_eq_default _ _ (Nat.le_of_not_lt hge)] at hrun
      exact absurd hrun (by simp [zeroTask])
    refine ⟨sched_yield { k with tasks := k.tasks.set c ({ taskAt k c with state := TaskState.TASK_SLEEP, remind_ticks := i32ofu32 time }) }, ?_, ?_, ?_, ?_, rfl⟩
    · simp only [sys_sleep, hc, if_pos hrun]
    · simp only [sched_yield, taskAt, getD_set_self k.tasks c _ hlt]
    · simp only [sched_yield, taskAt, getD_set_self k.tasks c _ hlt]
    · intro hsmall
      simp only [sched_yield, taskAt, getD_set_self k.tasks c _ hlt]
      have hlt32 : time % 4294967296 = time :=
        Nat.mod_eq_of_lt (by omega)
      simp only [i32ofu32, hlt32, if_pos hsmall]
  · intro hbad
    cases hc : k.curTask with
    | none => simp only [sys_sleep, hc]
    | some c =>
        rcases hbad with hnone | hnotrun
        · rw [hc] at hnone
          cases hnone
        · simp only [sys_sleep, hc, if_neg (hnotrun c hc)]

/-- C7 witness. -/
theorem sys_sleep_spec_inst :
    (∃ k1, sys_sleep 7 afterInit = KResult.ok 0 k1 ∧
      (taskAt k1 0).state = TaskState.TASK_SLEEP ∧
      (taskAt k1 0).remind_ticks = i32ofu32 7 ∧
      (7 < 2147483648 → (taskAt k1 0).remind_ticks = (7 : Int)) ∧
      k1.yields = afterInit.yields + 1) ∧
    sys_sleep 7 bootKernel = KResult.panicked :=
  ⟨(sys_sleep_spec 7 afterInit).1 0 rfl rfl,
   (sys_sleep_spec 7 bootKernel).2 (Or.inl rfl)⟩

/-- C6 theorem. -/
theorem sys_kill_noop_and_idempotent (k : Kernel) (pid : Int) :
    ((pid ≤ 0 ∨ (NR_TASKS : Int) ≤ pid ∨
        (taskAt k pid.toNat).state = TaskState.TASK_FREE ∨
        (taskAt k pid.toNat).state = TaskState.TASK_STOP) →
      sys_kill pid k = k) ∧
    (∀ a1 a2 a3 a4 a5, ∃ k1,
      do_syscall SYS_kill a1 a2 a3 a4 a5 k = KResult.ok 0 k1) ∧
    sys_kill pid (sys_kill pid k) = sys_kill pid k := by
  refine ⟨?_, ?_, ?_⟩
  · intro h
    by_cases hr : 0 < pid ∧ pid < (NR_TASKS : Int)
    · have hstop : (taskAt k pid.toNat).state = TaskState.TASK_FREE ∨
          (taskAt k pid.toNat).state = TaskState.TASK_STOP := by
        rcases h with h | h | h | h
        · omega
        · omega
        · exact Or.inl h
        · exact Or.inr h
      simp only [sys_kill, if_pos hr, if_pos hstop]
    · simp only [sys_kill, if_neg hr]
  · intro a1 a2 a3 a4 a5
    exact ⟨_, rfl⟩
  · by_cases hr : 0 < pid ∧ pid < (NR_TASKS : Int)
    · by_cases hstop : (taskAt k pid.toNat).state = TaskState.TASK_FREE ∨
          (taskAt k pid.toNat).state = TaskState.TASK_STOP
      · simp only [sys_kill, if_pos hr, if_pos hstop]
      · by_cases hlt : pid.toNat < k.tasks.length
        · -- first kill marks the slot STOP, second kill takes the early return
          have hfirst : sys_kill pid k = sched_yield (task_free pid
              { k with tasks := k.tasks.set pid.toNat ({ taskAt k pid.toNat with state := TaskState.TASK_STOP }) }) := by
            simp only [sys_kill, if_pos hr, if_neg hstop]
          rw [hfirst]
          have htasks : (sched_yield (task_free pid
              { k with tasks := k.tasks.set pid.toNat ({ taskAt k pid.toNat with state := TaskState.TASK_STOP }) })).tasks
              = k.tasks.set pid.toNat ({ taskAt k pid.toNat with state := TaskState.TASK_STOP }) := by
            simp only [sched_yield, task_free]
            by_cases hg : 0 < pid ∧ pid < (NR_TASKS : Int)
            · simp only [if_pos hg]
            · simp only [if_neg hg]
          have hstop2 : (taskAt (sched_yield (task_free pid
              { k with tasks := k.tasks.set pid.toNat ({ taskAt k pid.toNat with state := TaskState.TASK_STOP }) })) pid.toNat).state
              = TaskState.TASK_STOP := by
            rw [taskAt, htasks, getD_set_self _ _ _ hlt]
          simp only [sys_kill, if_pos hr, if_pos (Or.inr hstop2)]
        · -- out of the list: the slot reads as the zero task, whose state is FREE
          exact absurd (Or.inl (by
            rw [taskAt, List.getD_eq_default _ _ (Nat.le_of_not_lt hlt)]
            rfl)) hstop
    · simp only [sys_kill, if_neg hr]

/-- C6 witness. -/
theorem sys_kill_noop_and_idempotent_inst :
    sys_kill 0 afterFork = afterFork ∧
    sys_kill 99 afterFork = afterFork ∧
    (∃ k1, do_syscall SYS_kill 3 0 0 0 0 afterFork = KResult.ok 0 k1) ∧
    sys_kill 1 (sys_kill 1 afterFork) = sys_kill 1 afterFork :=
  ⟨(sys_kill_noop_and_idempotent afterFork 0).1 (Or.inl (by decide)),
   (sys_kill_noop_and_idempotent afterFork 99).1 (Or.inr (Or.inl (by decide))),
   (sys_kill_noop_and_idempotent afterFork 3).2.1 3 0 0 0 0,
   (sys_kill_noop_and_idempotent afterFork 1).2.2⟩

/-- C2 theorem. -/
theorem task_create_first_avail_slot_spec (k : Kernel)
    (hlen : k.tasks.length = NR_TASKS)
    (hmem : NSTACK + 1 ≤ k.mem.freePages) :
    ((∃ j, j < NR_TASKS ∧ availT (taskAt k j)) →
      ∃ i k1, task_create k = KResult.ok (Int.ofNat i) k1 ∧
        i < NR_TASKS ∧ availT (taskAt k i) ∧
        (∀ j, j < i → ¬ availT (taskAt k j)) ∧
        (taskAt k1 i).state = TaskState.TASK_RUNNABLE ∧
        (taskAt k1 i).task_id = Int.ofNat i ∧
        (taskAt k1 i).parent_id = parentIdOf k ∧
        (taskAt k1 i).remind_ticks = TIME_QUANT ∧
        countRunnable k1.tasks = countRunnable k.tasks + 1) ∧
    ((∀ j, j < NR_TASKS → ¬ availT (taskAt k j)) →
      task_create k = KResult.ok (-1) k) := by
  constructor
  · rintro ⟨j, hj, ha⟩
    obtain ⟨i, hscan⟩ := scanAvail_isSome_of_avail k.tasks j (by omega) ha
    obtain ⟨hi, hai, hleast⟩ := scanAvail_eq_some k.tasks i hscan
    obtain ⟨k1, heq, htasks, hcur, hcr3, hyld, hmap⟩ := task_create_char k i hscan hmem
    have hslot : taskAt k1 i = createdTask k i := by
      rw [taskAt, htasks, getD_set_self _ _ _ hi]
    refine ⟨i, k1, heq, by omega, hai, hleast, ?_, ?_, ?_, ?_, ?_⟩
    · rw [hslot]
      rfl
    · rw [hslot]
      rfl
    · rw [hslot]
      rfl
    · rw [hslot]
      rfl
    · rw [htasks]
      refine countRunnable_set k.tasks i (createdTask k i) hi ?_ rfl
      intro hcon
      rcases hai with h | h
      · rw [h] at hcon
        cases hcon
      · rw [h] at hcon
        cases hcon
  · intro hnone
    exact task_create_of_scan_none k
      (scanAvail_none_of_forall k.tasks (fun j hj => hnone j (by omega)))

/-- C2 witness. -/
theorem task_create_first_avail_slot_inst :
    ∃ i k1, task_create kFresh = KResult.ok (Int.ofNat i) k1 ∧
      i < NR_TASKS ∧ availT (taskAt kFresh i) ∧
      (∀ j, j < i → ¬ availT (taskAt kFresh j)) ∧
      (taskAt k1 i).state = TaskState.TASK_RUNNABLE ∧
      (taskAt k1 i).task_id = Int.ofNat i ∧
      (taskAt k1 i).parent_id = parentIdOf kFresh ∧
      (taskAt k1 i).remind_ticks = TIME_QUANT ∧
      countRunnable k1.tasks = countRunnable kFresh.tasks + 1 :=
  (task_create_first_avail_slot_spec kFresh rfl (by decide)).1
    ⟨0, by decide, by decide⟩

/-- C3 amended theorem. -/
theorem task_create_exhaustion_sentinel (k : Kernel)
    (hlen : k.tasks.length = NR_TASKS) :
    ((∀ j, j < NR_TASKS → ¬ availT (taskAt k j)) →
      task_create k = KResult.ok (-1) k) ∧
    (∀ i, scanAvail k.tasks = some i → ¬ k.mem.freePages = 0 →
      k.mem.freePages < NSTACK + 1 →
      ∃ k1, task_create k = KResult.ok (-1) k1 ∧
        (∀ j, (taskAt k1 j).state = (taskAt k j).state) ∧
        k1.curTask = k.curTask ∧ k1.cr3 = k.cr3 ∧ k1.yields = k.yields) ∧
    (∀ i, scanAvail k.tasks = some i → k.mem.freePages = 0 →
      task_create k = KResult.panicked) := by
  refine ⟨?_, ?_, ?_⟩
  · intro hnone
    exact task_create_of_scan_none k
      (scanAvail_none_of_forall k.tasks (fun j hj => hnone j (by omega)))
  · intro i hscan h1 h2
    exact task_create_stackfail k i hscan h1 h2
  · intro i hscan hz
    have hsk : setupkvm k.mem = none := by
      unfold setupkvm
      rw [if_pos hz]
    simp only [task_create, hscan, hsk]

/-- C3 witness. -/
theorem task_create_exhaustion_sentinel_inst :
    (task_create kFull = KResult.ok (-1) kFull) ∧
    (∃ k1, task_create kLowMem = KResult.ok (-1) k1 ∧
      (∀ j, (taskAt k1 j).state = (taskAt kLowMem j).state) ∧
      k1.curTask = kLowMem.curTask ∧ k1.cr3 = kLowMem.cr3 ∧
      k1.yields = kLowMem.yields) := by
  constructor
  · exact (task_create_exhaustion_sentinel kFull rfl).1 (by decide)
  · exact (task_create_exhaustion_sentinel kLowMem rfl).2.1 0 (by decide)
      (by decide) (by decide)

/-- C10 theorem. -/
theorem task_create_esp_one_page_below_top (k : Kernel) (pid : Int) (k1 : Kernel)
    (h : task_create k = KResult.ok pid k1) (hpid : 0 ≤ pid) :
    (taskAt k1 pid.toNat).tf.tf_esp = USTACKTOP - PGSIZE ∧
    USR_STACK_SIZE = NSTACK * PGSIZE ∧ PGSIZE < USR_STACK_SIZE ∧
    ∀ va ∈ stackVAs, (page_lookup k1.mem (taskAt k1 pid.toNat).pgdir va).isSome := by
  obtain ⟨i, hpidEq, hscan, htasks, hcur, hmap⟩ := task_create_ok_inv k pid k1 h hpid
  have hi : i < k.tasks.length := (scanAvail_eq_some k.tasks i hscan).1
  have hslot : taskAt k1 pid.toNat = createdTask k i := by
    rw [hpidEq]
    rw [taskAt, htasks]
    simpa using getD_set_self _ _ _ hi
  refine ⟨?_, by decide, by decide, ?_⟩
  · rw [hslot]
    rfl
  · intro va hva
    rw [hslot]
    exact hmap va hva

/-- The kernel state after task_create on kFresh. -/
def kFreshAfter : Kernel :=
  match task_create kFresh with
  | KResult.ok _ k => k
  | _ => kFresh

/-- C10 witness. -/
theorem task_create_esp_one_page_below_top_inst :
    (taskAt kFreshAfter (0 : Int).toNat).tf.tf_esp = USTACKTOP - PGSIZE ∧
    USR_STACK_SIZE = NSTACK * PGSIZE ∧ PGSIZE < USR_STACK_SIZE ∧
    ∀ va ∈ stackVAs, (page_lookup kFreshAfter.mem (taskAt kFreshAfter (0 : Int).toNat).pgdir va).isSome :=
  task_create_esp_one_page_below_top kFresh 0 kFreshAfter rfl (by decide)

theorem not_mem_filter_ne (l : List Nat) (d : Nat) :
    d ∉ l.filter (fun x => x != d) := by
  intro h
  have := (List.mem_filter.mp h).2
  simp at this

theorem ptable_remove_maps (m : Mem) (pd : Nat) :
    (ptable_remove m pd).maps = m.maps := rfl

theorem pgdir_remove_maps (m : Mem) (pd : Nat) :
    (pgdir_remove m pd).maps = m.maps := by
  unfold pgdir_remove
  by_cases hmem : pd ∈ m.dirAlive
  · rw [if_pos hmem]
  · rw [if_neg hmem]

theorem pgdir_remove_ptAlive (m : Mem) (pd : Nat) :
    (pgdir_remove m pd).ptAlive = m.ptAlive := by
  unfold pgdir_remove
  by_cases hmem : pd ∈ m.dirAlive
  · rw [if_pos hmem]
  · rw [if_neg hmem]

theorem ptable_remove_not_mem (m : Mem) (pd : Nat) :
    pd ∉ (ptable_remove m pd).ptAlive :=
  not_mem_filter_ne _ _

theorem pgdir_remove_not_mem (m : Mem) (pd : Nat) :
    pd ∉ (pgdir_remove m pd).dirAlive := by
  unfold pgdir_remove
  by_cases hmem : pd ∈ m.dirAlive
  · rw [if_pos hmem]
    exact not_mem_filter_ne _ _
  · rw [if_neg hmem]
    exact hmem

set_option maxHeartbeats 1600000 in
/-- C5 theorem. -/
theorem sys_kill_active_cleanup_spec (k : Kernel) (pid : Int)
    (hlen : k.tasks.length = NR_TASKS)
    (h0 : 0 < pid) (hN : pid < (NR_TASKS : Int))
    (hfree : ¬ (taskAt k pid.toNat).state = TaskState.TASK_FREE)
    (hstop : ¬ (taskAt k pid.toNat).state = TaskState.TASK_STOP) :
    (taskAt (sys_kill pid k) pid.toNat).state = TaskState.TASK_STOP ∧
    (sys_kill pid k).cr3 = KERN_PGDIR ∧
    (∀ va ∈ stackVAs,
      page_lookup (sys_kill pid k).mem (taskAt k pid.toNat).pgdir va = none) ∧
    (taskAt k pid.toNat).pgdir ∉ (sys_kill pid k).mem.ptAlive ∧
    (taskAt k pid.toNat).pgdir ∉ (sys_kill pid k).mem.dirAlive ∧
    (sys_kill pid k).yields = k.yields + 1 := by
  have hr : 0 < pid ∧ pid < (NR_TASKS : Int) := ⟨h0, hN⟩
  have hno : ¬ ((taskAt k pid.toNat).state = TaskState.TASK_FREE ∨
      (taskAt k pid.toNat).state = TaskState.TASK_STOP) := by
    rintro (h | h)
    · exact hfree h
    · exact hstop h
  have hlt : pid.toNat < k.tasks.length := by
    rw [hlen]
    omega
  have hts : taskAt { k with tasks := k.tasks.set pid.toNat ({ taskAt k pid.toNat with state := TaskState.TASK_STOP }) } pid.toNat = { taskAt k pid.toNat with state := TaskState.TASK_STOP } := by
    simp only [taskAt]
    exact getD_set_self _ _ _ hlt
  refine ⟨?_, ?_, ?_, ?_, ?_, ?_⟩
  · simp only [sys_kill, if_pos hr, if_neg hno, task_free, if_pos hr, sched_yield]
    simp only [taskAt]
    rw [getD_set_self _ _ _ hlt]
  · simp only [sys_kill, if_pos hr, if_neg hno, task_free, if_pos hr, sched_yield]
  · intro va hva
    simp only [sys_kill, if_pos hr, if_neg hno, task_free, if_pos hr, sched_yield, hts]
    rw [page_lookup_congr_maps _
      (removeStack (taskAt k pid.toNat).pgdir stackVAs k.mem) _ va
      (by rw [pgdir_remove_maps, ptable_remove_maps]; rfl)]
    exact removeStack_lookup _ stackVAs k.mem va hva
  · simp only [sys_kill, if_pos hr, if_neg hno, task_free, if_pos hr, sched_yield, hts]
    rw [pgdir_remove_ptAlive]
    exact ptable_remove_not_mem _ _
  · simp only [sys_kill, if_pos hr, if_neg hno, task_free, if_pos hr, sched_yield, hts]
    exact pgdir_remove_not_mem _ _
  · simp only [sys_kill, if_pos hr, if_neg hno, task_free, if_pos hr, sched_yield]

theorem taskAt_set_self_any (ts : List Task) (t : Task) (i : Nat) (cur : Option Nat)
    (m : Mem) (r y co ti : Nat) (inp : List Int) (tc : Nat × Nat) (cls : Nat)
    (hi : i < ts.length) :
    taskAt { tasks := ts.set i t, curTask := cur, mem := m, cr3 := r, yields := y,
             consoleOut := co, ticks := ti, input := inp, textColor := tc,
             clsCount := cls } i = t := by
  simp only [taskAt]
  exact getD_set_self _ _ _ hi

theorem sys_fork_child_trapframe_spec (k : Kernel) (c : Nat) (ret : Int) (kf : Kernel)
    (hcur : k.curTask = some c)
    (hrun : (taskAt k c).state = TaskState.TASK_RUNNING)
    (h : sys_fork k = KResult.ok ret kf) (hret : 0 ≤ ret) :
    (taskAt kf ret.toNat).tf = setEax (taskAt k c).tf 0 ∧
    ret = (taskAt kf ret.toNat).task_id := by
  unfold sys_fork at h
  simp only [hcur] at h
  cases htc : task_create k with
  | panicked =>
      simp only [htc] at h
      simp at h
  | ub =>
      simp only [htc] at h
      simp at h
  | ok pid kc =>
      simp only [htc] at h
      by_cases hp0 : pid = 0
      · rw [if_pos hp0] at h
        simp only [KResult.ok.injEq] at h
        omega
      · rw [if_neg hp0] at h
        by_cases hpn : pid < 0 ∨ (NR_TASKS : Int) ≤ pid
        · rw [if_pos hpn] at h
          simp at h
        · rw [if_neg hpn] at h
          push_neg at hpn
          obtain ⟨i, hpidEq, hscan, htasks, hcurEq, hmap⟩ :=
            task_create_ok_inv k pid kc htc (by omega)
          have hi : i < k.tasks.length := (scanAvail_eq_some k.tasks i hscan).1
          have hlen2 : kc.tasks.length = k.tasks.length := by
            rw [htasks]
            exact List.length_set k.tasks i (createdTask k i)
          have hitoNat : pid.toNat = i := by
            rw [hpidEq]
            rfl
          have hic : i ≠ c := by
            intro he
            have havail := (scanAvail_eq_some k.tasks i hscan).2.1
            have hrun2 : (k.tasks.getD c zeroTask).state = TaskState.TASK_RUNNING := hrun
            rw [he] at havail
            rcases havail with hx | hx
            · rw [hrun2] at hx
              cases hx
            · rw [hrun2] at hx
              cases hx
          have ht1 : taskAt kc i = createdTask k i := by
            simp only [taskAt, htasks]
            exact getD_set_self _ _ _ hi
          have htcc : taskAt kc c = taskAt k c := by
            simp only [taskAt, htasks]
            exact getD_set_ne _ _ _ _ hic
          split at h
          · simp only [KResult.ok.injEq] at h
            obtain ⟨h1, h2⟩ := h
            subst h1
            subst h2
            rw [hitoNat]
            constructor
            · rw [taskAt_set_self_any _ _ _ _ _ _ _ _ _ _ _ _
                (by rw [List.length_set, hlen2]; exact hi)]
              dsimp only
              rw [taskAt_set_self_any _ _ _ _ _ _ _ _ _ _ _ _
                (by rw [hlen2]; exact hi)]
              dsimp only
              rw [htcc]
            · rw [taskAt_set_self_any _ _ _ _ _ _ _ _ _ _ _ _
                (by rw [List.length_set, hlen2]; exact hi)]
              dsimp only
              rw [taskAt_set_self_any _ _ _ _ _ _ _ _ _ _ _ _
                (by rw [hlen2]; exact hi)]
              dsimp only
              rw [ht1, hpidEq]
              rfl
          · simp only [KResult.ok.injEq] at h
            omega

/-- C4 witness. -/
theorem sys_fork_child_trapframe_inst :
    (taskAt afterFork (1 : Int).toNat).tf = setEax (taskAt afterInit 0).tf 0 ∧
    (1 : Int) = (taskAt afterFork (1 : Int).toNat).task_id :=
  sys_fork_child_trapframe_spec afterInit 0 1 afterFork rfl rfl rfl (by decide)

/-- C5 witness. -/
theorem sys_kill_active_cleanup_inst :
    (taskAt (sys_kill 1 afterFork) (1 : Int).toNat).state = TaskState.TASK_STOP ∧
    (sys_kill 1 afterFork).cr3 = KERN_PGDIR ∧
    (∀ va ∈ stackVAs,
      page_lookup (sys_kill 1 afterFork).mem (taskAt afterFork (1 : Int).toNat).pgdir va = none) ∧
    (taskAt afterFork (1 : Int).toNat).pgdir ∉ (sys_kill 1 afterFork).mem.ptAlive ∧
    (taskAt afterFork (1 : Int).toNat).pgdir ∉ (sys_kill 1 afterFork).mem.dirAlive ∧
    (sys_kill 1 afterFork).yields = afterFork.yields + 1 :=
  sys_kill_active_cleanup_spec afterFork 1 rfl (by decide) (by decide) (by decide) (by decide)

end Kern
